import Mathlib

/-!
Verification of the f1tracker pipeline core.

This file gives a shallow embedding of the pure core of the repository:
the reference-track builder and the two locator algorithms of the capture
script, and the pipeline controller / windowed fetcher of the module
(both variants concatenated in module.go are embedded, as namespaces M1
and M2).  Go float64 arithmetic is idealised as real arithmetic; machine
integers are Lean Int (no overflow occurs at the magnitudes involved);
external collaborators (the HTTP upstream, wall clocks, timestamp
parsing) are passed in as explicit environments.
-/

namespace F1

/-- Location sample from the OpenF1 API (struct `Location` in the source). -/
structure Location where
  date : String
  driverNumber : Int
  meetingKey : Int
  sessionKey : Int
  x : Int
  y : Int
  z : Int
deriving Repr, DecidableEq

/-- Point on the reference track (struct `TrackPoint`). -/
structure TrackPoint where
  x : Int
  y : Int
  z : Int
deriving Repr, DecidableEq

/-- Reference track (struct `ReferenceTrack`): a start point plus the point list. -/
structure ReferenceTrack where
  startPoint : TrackPoint
  points : List TrackPoint
deriving Repr, DecidableEq

/-- Default Location for out-of-range list reads; every read the source performs
is in range, so the default never shows through. -/
def dfltLoc : Location := ⟨"", 0, 0, 0, 0, 0, 0⟩

/-- Default TrackPoint for out-of-range list reads. -/
def dfltPt : TrackPoint := ⟨0, 0, 0⟩

/-- Session from the OpenF1 API (struct `Session`). -/
structure Session where
  sessionKey : Int
  dateStart : String
  dateEnd : String
deriving Repr, DecidableEq

/-- One element of a Go `[]interface{}` payload as the `start` type switch sees it:
an int, an int64, a float64, or anything else. -/
inductive GoNum where
  | gInt (n : Int)
  | gInt64 (n : Int)
  | gFloat64 (q : Rat)
  | gOther
deriving Repr, DecidableEq

/-- Shape of the `start` command payload (the Go `cmdValue interface{}`):
a `[]int`, a `[]interface{}`, or something that is neither. -/
inductive CmdValue where
  | intList (ns : List Int)
  | anyList (vs : List GoNum)
  | notList
deriving Repr, DecidableEq

/-- Truncation toward zero, the behaviour of Go `int(aFloat64)`. -/
def truncQ (q : Rat) : Int := if q < 0 then Int.ceil q else Int.floor q

/-- Element-wise conversion of a `[]interface{}` payload to driver numbers,
failing at the first non-numeric element exactly as the loop in `start` does. -/
def parseAnyList : List GoNum → Nat → Except String (List Int)
  | [], _ => .ok []
  | .gInt n :: rest, i => (parseAnyList rest (i + 1)).map (fun ns => n :: ns)
  | .gInt64 n :: rest, i => (parseAnyList rest (i + 1)).map (fun ns => n :: ns)
  | .gFloat64 q :: rest, i => (parseAnyList rest (i + 1)).map (fun ns => truncQ q :: ns)
  | .gOther :: _, i =>
    .error ("start command: element at index " ++ toString i ++ " is not a number")

/-- Driver-number parsing of `start` (module.go first variant, lines 211-236). -/
def parseDrivers : CmdValue → Except String (List Int)
  | .intList ns => .ok ns
  | .anyList vs => parseAnyList vs 0
  | .notList => .error ("start command expects a list of integers")

/-- External collaborators of `start`: the upstream session fetch and RFC3339
timestamp parsing (timestamps as integer milliseconds). -/
structure StartEnv where
  sessionRes : Except String Session
  parseTime : String → Option Int

namespace M1

/-- Function `start` of the first module.go variant (lines 206-312) as a transition
on the atomic `started` flag: the pair returned is the flag value after the call and
the call's result.  The compare-and-swap at line 207 fails exactly when the flag is
already true.  The early returns of payload validation do not restore the flag,
exactly as in the source; the fetch-session and parse-time error paths do. -/
def start (env : StartEnv) (started : Bool) (cmd : CmdValue) : Bool × Except String Unit :=
  if started then (true, .error ("already started"))
  else
    match parseDrivers cmd with
    | .error e => (true, .error e)
    | .ok ds =>
      if ds.length = 0 then (true, .error ("start command requires at least one driver number"))
      else
        match env.sessionRes with
        | .error e => (false, .error ("failed to fetch session: " ++ e))
        | .ok sess =>
          match env.parseTime sess.dateStart with
          | none => (false, .error ("failed to parse session start time"))
          | some _ => (true, .ok ())

end M1

namespace M2

/-- Function `start` of the second module.go variant (lines 856-919).  The guard at
line 857 reads `if s.started.CompareAndSwap(false, true)`: the swap succeeds exactly
when the flag was false, so the error branch is taken on a fresh start (with the flag
left set to true by the swap) and skipped when a pipeline is already running. -/
def start (env : StartEnv) (started : Bool) : Bool × Except String Unit :=
  if started = false then (true, .error ("already started"))
  else
    match env.sessionRes with
    | .error e => (false, .error ("failed to fetch session: " ++ e))
    | .ok sess =>
      match env.parseTime sess.dateStart with
      | none => (false, .error ("failed to parse session start time"))
      | some _ => (true, .ok ())

end M2

/-- Per-driver fetcher state (struct `fetcherState`); timestamps in milliseconds. -/
structure FetcherState where
  sessionKey : Int
  lastFetchedTime : Int
  driverNumber : Int
deriving Repr, DecidableEq

/-- Environment of one fetcher tick: the result the upstream location fetch would
return for the requested window, and RFC3339 timestamp parsing. -/
structure FetchEnv where
  fetchRes : Except String (List Location)
  parseTime : String → Option Int

/-- Observable effect of one fetcher tick: the fetcher state afterwards, the samples
pushed to the driver's channel, and whether the channel was closed. -/
structure FetcherEffect where
  state : FetcherState
  sent : List Location
  closedChan : Bool
deriving Repr, DecidableEq

/-- Fetch window length of the first variant (`fetchWindowDuration = time.Minute`). -/
def fetchWindowDuration : Int := 60000

/-- Backpressure threshold (`bufferLowThreshold = 0.2`). -/
def bufferLowThreshold : Rat := 0.2

namespace M1

/-- Function `fetcher` of the first module.go variant (lines 322-369): one tick of the
ticker loop, given the channel's current length and capacity. -/
def fetcher (env : FetchEnv) (st : FetcherState) (bufLen bufCap : Nat) : FetcherEffect :=
  if (bufLen : Rat) / (bufCap : Rat) < bufferLowThreshold then
    let endTime := st.lastFetchedTime + fetchWindowDuration
    match env.fetchRes with
    | .error _ => ⟨st, [], false⟩
    | .ok locs =>
      if locs.length = 0 then ⟨st, [], true⟩
      else
        match env.parseTime (locs.getLastD dfltLoc).date with
        | some t => ⟨{ st with lastFetchedTime := t + 1 }, locs, false⟩
        | none => ⟨{ st with lastFetchedTime := endTime }, locs, false⟩
  else ⟨st, [], false⟩

end M1

/-- Function `distance2D` of the capture script: planar Euclidean distance, Z ignored.
Go computes `math.Sqrt(dx*dx + dy*dy)` on float64; idealised here over the reals. -/
noncomputable def distance2D (x1 y1 x2 y2 : Int) : ℝ :=
  Real.sqrt (((x2 - x1 : Int) : ℝ) * ((x2 - x1 : Int) : ℝ) +
    ((y2 - y1 : Int) : ℝ) * ((y2 - y1 : Int) : ℝ))

/-- Cumulative planar arc length along a sample list, the `cumulativeDistances` array:
`cumDist locs i` is `cumulativeDistances[i]`. -/
noncomputable def cumDist (locs : List Location) : Nat → ℝ
  | 0 => 0
  | i + 1 =>
    cumDist locs i +
      distance2D (locs.getD i dfltLoc).x (locs.getD i dfltLoc).y
        (locs.getD (i + 1) dfltLoc).x (locs.getD (i + 1) dfltLoc).y

/-- Scan of `generateReferenceTrack`'s lap-detection loop from position `i` with
`steps` positions left; yields `len(locations)-1` when no sample within the
threshold is found. -/
noncomputable def findLapEndAux (locations : List Location) (startX startY : Int) :
    Nat → Nat → Nat
  | _, 0 => locations.length - 1
  | i, steps + 1 =>
    if distance2D (locations.getD i dfltLoc).x (locations.getD i dfltLoc).y
        startX startY < 1000 then i
    else findLapEndAux locations startX startY (i + 1) steps

/-- The `lapEndIdx` computed by `generateReferenceTrack` (lines 70-77): first index
at or after 100 whose planar distance to the start point is below 1000, else the
last index. -/
noncomputable def findLapEnd (locations : List Location) (sp : TrackPoint) : Nat :=
  findLapEndAux locations sp.x sp.y 100 (locations.length - 100)

/-- Modelled from the spec's words for claim C5: the lap as the claim states it,
namely the prefix of the input up to and including the first detected sample
(the entire input when none is detected).  To be compared with `lapUsed`. -/
noncomputable def specDetectedLap (locations : List Location) (sp : TrackPoint) :
    List Location :=
  locations.take (findLapEnd locations sp + 1)

/-- The `lapLocations` actually used for resampling (lines 80-84): the detected
prefix, unless it is shorter than 144 samples, in which case the whole input. -/
noncomputable def lapUsed (locations : List Location) (sp : TrackPoint) : List Location :=
  let lapLocations := locations.take (findLapEnd locations sp + 1)
  if lapLocations.length < 144 then locations else lapLocations

/-- Truncation toward zero on the reals, the behaviour of Go `int(aFloat64)`. -/
noncomputable def truncR (x : ℝ) : Int := if x < 0 then Int.ceil x else Int.floor x

/-- Bracket search of the resampling loop (lines 116-131): first `j` with
`cumulativeDistances[j] <= targetDist <= cumulativeDistances[j+1]`, scanning
`steps` values of `j` from `j = start`. -/
noncomputable def bracketAux (lap : List Location) (t : ℝ) : Nat → Nat → Option Nat
  | _, 0 => none
  | j, steps + 1 =>
    if cumDist lap j ≤ t ∧ t ≤ cumDist lap (j + 1) then some j
    else bracketAux lap t (j + 1) steps

/-- Component-wise interpolation `int(float64(a) + ratio*float64(b-a))`. -/
noncomputable def lerpCoord (a b : Int) (ratio : ℝ) : Int :=
  truncR ((a : ℝ) + ratio * ((b - a : Int) : ℝ))

/-- Body of the resampling loop of `generateReferenceTrack` (lines 103-147) for one
index `i`: indices 0 and 143 are pinned to the start point; interior indices
interpolate within the bracketing segment, falling back to the closing segment
toward the start point, and to the zero value if no branch fires. -/
noncomputable def referencePointAt (lap : List Location) (sp : TrackPoint)
    (trackLength distToStart : ℝ) (i : Nat) : TrackPoint :=
  let targetDist := ((i : ℝ) / 143) * trackLength
  if i = 0 ∨ i = 143 then ⟨sp.x, sp.y, sp.z⟩
  else
    match bracketAux lap targetDist 0 (lap.length - 1) with
    | some j =>
      let d1 := cumDist lap j
      let d2 := cumDist lap (j + 1)
      let ratio := (targetDist - d1) / (d2 - d1)
      let pj := lap.getD j dfltLoc
      let pj1 := lap.getD (j + 1) dfltLoc
      ⟨lerpCoord pj.x pj1.x ratio, lerpCoord pj.y pj1.y ratio, lerpCoord pj.z pj1.z ratio⟩
    | none =>
      if targetDist > cumDist lap (lap.length - 1) then
        let d1 := cumDist lap (lap.length - 1)
        let ratio := (targetDist - d1) / distToStart
        let lastP := lap.getD (lap.length - 1) dfltLoc
        ⟨lerpCoord lastP.x sp.x ratio, lerpCoord lastP.y sp.y ratio,
          lerpCoord lastP.z sp.z ratio⟩
      else ⟨0, 0, 0⟩

/-- Function `generateReferenceTrack` of the capture script (lines 60-153). -/
noncomputable def generateReferenceTrack (locations : List Location) (sp : TrackPoint) :
    Except String ReferenceTrack :=
  if locations.length < 144 then
    .error ("need at least 144 locations to generate reference track")
  else
    let lap := lapUsed locations sp
    let totalDist := cumDist lap (lap.length - 1)
    let distToStart :=
      distance2D (lap.getD (lap.length - 1) dfltLoc).x (lap.getD (lap.length - 1) dfltLoc).y
        sp.x sp.y
    let trackLength := totalDist + distToStart
    .ok ⟨sp, (List.range 144).map (referencePointAt lap sp trackLength distToStart)⟩

/-- The loop state of `mapLocationToIndex` (minDist, closestIdx) threaded over the
remaining points; `none` models the `math.MaxFloat64` sentinel, which in the source
strictly exceeds every representable planar distance, so the first comparison
always updates the state. -/
noncomputable def scanState (loc : Location) :
    List TrackPoint → Nat → Option ℝ × Nat → Option ℝ × Nat
  | [], _, s => s
  | p :: rest, i, (none, _) =>
    scanState loc rest (i + 1) (some (distance2D loc.x loc.y p.x p.y), i)
  | p :: rest, i, (some m, best) =>
    if distance2D loc.x loc.y p.x p.y < m then
      scanState loc rest (i + 1) (some (distance2D loc.x loc.y p.x p.y), i)
    else scanState loc rest (i + 1) (some m, best)

/-- Function `mapLocationToIndex` of the capture script (lines 162-180). -/
noncomputable def mapLocationToIndex (loc : Location) (track : ReferenceTrack) : Nat :=
  if track.points.length ≠ 144 then 0
  else (scanState loc track.points 0 (none, 0)).2

/-- Planar distance from a sample to the track point at index `j`. -/
noncomputable def trackDist (loc : Location) (track : ReferenceTrack) (j : Nat) : ℝ :=
  distance2D loc.x loc.y (track.points.getD j dfltPt).x (track.points.getD j dfltPt).y

/-- The `totalDistance` of `mapLocationsToIndices` (lines 235-240). -/
noncomputable def totalDistance (locs : List Location) : ℝ :=
  cumDist locs (locs.length - 1)

/-- The lap-boundary threshold of `mapLocationsToIndices` (lines 244-245): five
times the mean segment length of the whole stream. -/
noncomputable def lapThreshold (locs : List Location) : ℝ :=
  totalDistance locs / ((locs.length : ℝ) - 1) * 5

/-- Planar distance from sample `i` back to the first sample's coordinates. -/
noncomputable def distFirst (locs : List Location) (i : Nat) : ℝ :=
  distance2D (locs.getD i dfltLoc).x (locs.getD i dfltLoc).y
    (locs.getD 0 dfltLoc).x (locs.getD 0 dfltLoc).y

/-- Lap-boundary scan of `mapLocationsToIndices` (lines 250-259), from position `i`
with `steps` positions left, `acc` being the `lapStarts` list built so far.  A
boundary is appended when the distance back to the first point is below the
threshold and strictly more than 50 samples passed since the last recorded start. -/
noncomputable def lapScan (locs : List Location) (thr : ℝ) : Nat → Nat → List Nat → List Nat
  | _, 0, acc => acc
  | i, steps + 1, acc =>
    let acc' :=
      if distFirst locs i < thr then
        (if i - acc.getLastD 0 > 50 then acc ++ [i] else acc)
      else acc
    lapScan locs thr (i + 1) steps acc'

/-- The `lapStarts` list of `mapLocationsToIndices`: starts as `[0]`, scanning
indices 50 .. len-1. -/
noncomputable def mapLapStarts (locs : List Location) : List Nat :=
  lapScan locs (lapThreshold locs) 50 (locs.length - 50) [0]

/-- Backward scan of the lap-assignment loop (lines 264-270): `findLapIdxAux starts
i (j+1)` checks position `j` first and walks down, defaulting to lap 0. -/
def findLapIdxAux (starts : List Nat) (i : Nat) : Nat → Nat
  | 0 => 0
  | j + 1 => if starts.getD j 0 ≤ i then j else findLapIdxAux starts i j

/-- The `lapIndex` assigned to sample `i`: position in `lapStarts` of the most
recent boundary at or before `i`. -/
def findLapIndex (starts : List Nat) (i : Nat) : Nat :=
  findLapIdxAux starts i starts.length

/-- Body of the index-assignment loop of `mapLocationsToIndices` (lines 262-298)
for one sample `i`. -/
noncomputable def indexAt (locs : List Location) (starts : List Nat) (i : Nat) : Int :=
  let li := findLapIndex starts i
  let lapStartIdx := starts.getD li 0
  let lapEndIdx :=
    if li + 1 < starts.length then starts.getD (li + 1) 0 - 1 else locs.length - 1
  let lapStartDist := cumDist locs lapStartIdx
  let lapEndDist := cumDist locs lapEndIdx
  let pointDist := cumDist locs i
  if lapEndDist = lapStartDist then 0
  else
    let index : Int := Int.floor ((pointDist - lapStartDist) / (lapEndDist - lapStartDist) * 144)
    if 144 ≤ index then 143 else index

/-- Function `mapLocationsToIndices` of the capture script (lines 214-301).  The
initial `indices[0] = 0` of the source is overwritten by the assignment loop, whose
value the map below computes for every position. -/
noncomputable def mapLocationsToIndices (locs : List Location) : List Int :=
  if locs.length = 0 then []
  else (List.range locs.length).map (fun i => indexAt locs (mapLapStarts locs) i)

/-- Modelled from the spec's words for claim C6: the boundary scan with the
recency condition read as "at least 50 samples have elapsed" (`prev + 50 ≤ i`),
returning only the recorded boundaries after the initial 0. -/
noncomputable def specLapScanGE (locs : List Location) (thr : ℝ) :
    Nat → Nat → Nat → List Nat
  | _, 0, _ => []
  | i, steps + 1, prev =>
    if distFirst locs i < thr ∧ prev + 50 ≤ i then
      i :: specLapScanGE locs thr (i + 1) steps i
    else specLapScanGE locs thr (i + 1) steps prev

/-- The boundary scan with the recency condition as the code has it: strictly more
than 50 samples elapsed (`prev + 50 < i`).  Used to state the amended claim C6. -/
noncomputable def specLapScanGT (locs : List Location) (thr : ℝ) :
    Nat → Nat → Nat → List Nat
  | _, 0, _ => []
  | i, steps + 1, prev =>
    if distFirst locs i < thr ∧ prev + 50 < i then
      i :: specLapScanGT locs thr (i + 1) steps i
    else specLapScanGT locs thr (i + 1) steps prev

/-- Lap boundaries as claim C6 states them ("at least 50 samples elapsed"). -/
noncomputable def specLapStartsClaim (locs : List Location) : List Nat :=
  0 :: specLapScanGE locs (lapThreshold locs) 50 (locs.length - 50) 0

/-- Lap boundaries as the amended claim C6 states them (strictly more than 50
samples elapsed). -/
noncomputable def specLapStartsStrict (locs : List Location) : List Nat :=
  0 :: specLapScanGT locs (lapThreshold locs) 50 (locs.length - 50) 0

/-- Input family for claim C8: `n` evenly spaced samples along a straight line,
sample `j` at `(x0 + j*dx, y0 + j*dy, z0)`. -/
def lineLocs (n : Nat) (x0 y0 dx dy z0 : Int) : List Location :=
  (List.range n).map (fun (j : Nat) =>
    ⟨"", 0, 0, 0, x0 + (j : Int) * dx, y0 + (j : Int) * dy, z0⟩)

/-- Sample used by the claim C5 counterexample: every sample sits at (100, 5000). -/
def cex5loc : Location := ⟨"", 0, 0, 0, 100, 5000, 0⟩

/-- Claim C5 counterexample input: 150 identical samples at the start point, so the
lap-detection scan fires at index 100 and the detected prefix has 101 < 144
samples. -/
def cex5 : List Location := (List.range 150).map (fun _ => cex5loc)

/-- Start point of the claim C5 counterexample, the common sample position. -/
def sp5 : TrackPoint := ⟨100, 5000, 0⟩

/-- Sample `j` of the claim C6 counterexample: marching right in steps of 10, with
sample 50 back at the origin. -/
def cex6f (j : Nat) : Location :=
  if j = 50 then ⟨"", 0, 0, 0, 0, 0, 0⟩ else ⟨"", 0, 0, 0, 10 * (j : Int), 0, 0⟩

/-- Claim C6 counterexample input: 51 samples whose last sample returns exactly to
the first coordinates, 50 samples after the initial lap start. -/
def cex6 : List Location := (List.range 51).map cex6f

/-- Concrete session used by the closed evaluation theorems. -/
def sess0 : Session := ⟨9159, "2023-11-18T01:00:00Z", "2023-11-18T03:00:00Z"⟩

/-- Concrete controller environment whose upstream calls succeed. -/
def env0 : StartEnv := ⟨.ok sess0, fun _ => some 1700269200000⟩

/-- Concrete fetcher environment whose upstream fetch fails. -/
def fetchEnvErr : FetchEnv := ⟨.error ("connection reset"), fun _ => none⟩

/-- Concrete fetcher state. -/
def st0 : FetcherState := ⟨9159, 1700269200000, 44⟩

/-- Concrete 144-sample input for the C1 witness. -/
def locsW1 : List Location := (List.range 144).map (fun _ => dfltLoc)

/-- Concrete degenerate track (length 0) for the C2 witness. -/
def trackW2 : ReferenceTrack := ⟨dfltPt, []⟩

/-- Reading a mapped range at an in-range position. -/
theorem getD_range_map {α : Type} (f : Nat → α) (n j : Nat) (d : α) (h : j < n) :
    ((List.range n).map f).getD j d = f j := by
  rw [List.getD_eq_getElem?_getD]
  simp [List.getElem?_map, List.getElem?_range h]

/-- C1: with at least 144 samples, `generateReferenceTrack` succeeds and yields
exactly 144 points whose first and last entries are the given start point; with
fewer samples it fails with the insufficient-data error. -/
theorem generateReferenceTrack_spec (locs : List Location) (sp : TrackPoint) :
    (144 ≤ locs.length →
      ∃ t, generateReferenceTrack locs sp = .ok t ∧ t.points.length = 144 ∧
        t.points.getD 0 dfltPt = sp ∧ t.points.getD 143 dfltPt = sp ∧
        t.startPoint = sp) ∧
    (locs.length < 144 →
      generateReferenceTrack locs sp =
        .error ("need at least 144 locations to generate reference track")) := by
  constructor
  · intro h
    have hn : ¬ locs.length < 144 := not_lt.mpr h
    unfold generateReferenceTrack
    rw [if_neg hn]
    refine ⟨_, rfl, by simp, ?_, ?_, rfl⟩
    · rw [getD_range_map _ _ _ _ (by norm_num : (0 : Nat) < 144)]
      simp [referencePointAt]
    · rw [getD_range_map _ _ _ _ (by norm_num : (143 : Nat) < 144)]
      simp [referencePointAt]
  · intro h
    unfold generateReferenceTrack
    rw [if_pos h]

/-- C1 witness: 144 concrete samples produce a track with the pinned endpoints. -/
theorem generateReferenceTrack_spec_witness :
    ∃ t, generateReferenceTrack locsW1 dfltPt = .ok t ∧ t.points.length = 144 ∧
      t.points.getD 0 dfltPt = dfltPt ∧ t.points.getD 143 dfltPt = dfltPt ∧
      t.startPoint = dfltPt :=
  (generateReferenceTrack_spec locsW1 dfltPt).1 (by simp [locsW1])

/-- Planar distance is nonnegative. -/
theorem distance2D_nonneg (x1 y1 x2 y2 : Int) : 0 ≤ distance2D x1 y1 x2 y2 :=
  Real.sqrt_nonneg _

/-- Planar distance of a point to itself is zero. -/
theorem distance2D_self (x y : Int) : distance2D x y x y = 0 := by
  simp [distance2D]

/-- Invariant of the nearest-point scan of `mapLocationToIndex`: given the distance
function `Df` over absolute indices, running the loop from position `i` with current
minimum `m` attained first at `best` ends at the least index of the overall minimum
over the indices seen. -/
theorem scanState_inv (loc : Location) (Df : Nat → ℝ) :
    ∀ (pts : List TrackPoint) (i best : Nat) (m : ℝ),
      (∀ k, k < pts.length →
        distance2D loc.x loc.y (pts.getD k dfltPt).x (pts.getD k dfltPt).y = Df (i + k)) →
      m = Df best → best < i →
      (∀ j, j < i → m ≤ Df j) → (∀ j, j < best → m < Df j) →
      (scanState loc pts i (some m, best)).2 < i + pts.length ∧
      (scanState loc pts i (some m, best)).1 =
        some (Df (scanState loc pts i (some m, best)).2) ∧
      (∀ j, j < i + pts.length → Df (scanState loc pts i (some m, best)).2 ≤ Df j) ∧
      (∀ j, j < (scanState loc pts i (some m, best)).2 →
        Df (scanState loc pts i (some m, best)).2 < Df j) := by
  intro pts
  induction pts with
  | nil =>
    intro i best m hc hm hbi hall hlow
    exact ⟨hbi, congrArg some hm, fun j hj => hm ▸ hall j hj, fun j hj => hm ▸ hlow j hj⟩
  | cons p rest ih =>
    intro i best m hc hm hbi hall hlow
    have hd : distance2D loc.x loc.y p.x p.y = Df i := by
      have h0 := hc 0 (by simp)
      simpa using h0
    simp only [scanState]
    by_cases hlt : distance2D loc.x loc.y p.x p.y < m
    · rw [if_pos hlt]
      have harg := ih (i + 1) i (distance2D loc.x loc.y p.x p.y)
        (fun k hk => by
          have h1 := hc (k + 1) (by simp only [List.length_cons]; omega)
          rw [List.getD_cons_succ] at h1
          rw [(by omega : i + (k + 1) = i + 1 + k)] at h1
          exact h1)
        hd (Nat.lt_succ_self i)
        (fun j hj => by
          rcases Nat.lt_succ_iff_lt_or_eq.mp hj with hj' | rfl
          · exact le_of_lt (lt_of_lt_of_le hlt (hall j hj'))
          · exact le_of_eq hd)
        (fun j hj => lt_of_lt_of_le hlt (hall j hj))
      refine ⟨?_, harg.2.1, fun j hj => harg.2.2.1 j ?_, harg.2.2.2⟩
      · have h1 := harg.1
        simp only [List.length_cons]
        omega
      · simp only [List.length_cons] at hj
        omega
    · rw [if_neg hlt]
      have hle : m ≤ distance2D loc.x loc.y p.x p.y := not_lt.mp hlt
      have harg := ih (i + 1) best m
        (fun k hk => by
          have h1 := hc (k + 1) (by simp only [List.length_cons]; omega)
          rw [List.getD_cons_succ] at h1
          rw [(by omega : i + (k + 1) = i + 1 + k)] at h1
          exact h1)
        hm (by omega)
        (fun j hj => by
          rcases Nat.lt_succ_iff_lt_or_eq.mp hj with hj' | rfl
          · exact hall j hj'
          · exact hd ▸ hle)
        hlow
      refine ⟨?_, harg.2.1, fun j hj => harg.2.2.1 j ?_, harg.2.2.2⟩
      · have h1 := harg.1
        simp only [List.length_cons]
        omega
      · simp only [List.length_cons] at hj
        omega

/-- The nearest-point scan on a nonempty list returns the least index attaining the
minimum planar distance. -/
theorem scanClosest_main (loc : Location) (pts : List TrackPoint) (hne : pts ≠ []) :
    (scanState loc pts 0 (none, 0)).2 < pts.length ∧
    (∀ j, j < pts.length →
      distance2D loc.x loc.y ((pts.getD (scanState loc pts 0 (none, 0)).2 dfltPt).x)
          ((pts.getD (scanState loc pts 0 (none, 0)).2 dfltPt).y) ≤
        distance2D loc.x loc.y ((pts.getD j dfltPt).x) ((pts.getD j dfltPt).y)) ∧
    (∀ j, j < (scanState loc pts 0 (none, 0)).2 →
      distance2D loc.x loc.y ((pts.getD (scanState loc pts 0 (none, 0)).2 dfltPt).x)
          ((pts.getD (scanState loc pts 0 (none, 0)).2 dfltPt).y) <
        distance2D loc.x loc.y ((pts.getD j dfltPt).x) ((pts.getD j dfltPt).y)) := by
  cases pts with
  | nil => exact absurd rfl hne
  | cons p rest =>
    simp only [scanState, Nat.zero_add]
    have harg := scanState_inv loc
      (fun j => distance2D loc.x loc.y (((p :: rest).getD j dfltPt).x)
        (((p :: rest).getD j dfltPt).y))
      rest 1 0 (distance2D loc.x loc.y p.x p.y)
      (fun k hk => by simp [List.getD_cons_succ, Nat.add_comm 1 k])
      (by simp) (Nat.lt_succ_self 0)
      (fun j hj => by
        interval_cases j
        simp)
      (fun j hj => absurd hj (Nat.not_lt_zero j))
    refine ⟨?_, fun j hj => harg.2.2.1 j ?_, fun j hj => harg.2.2.2 j hj⟩
    · have h1 := harg.1
      simp only [List.length_cons]
      omega
    · simp only [List.length_cons] at hj
      omega

/-- C2: with exactly 144 points, `mapLocationToIndex` returns the lowest index among
those minimising planar distance to the sample — in particular a sample whose
coordinates coincide with `points[k]` gets an index at most `k`, at distance zero —
and with any other point count it returns 0. -/
theorem mapLocationToIndex_spec (loc : Location) (track : ReferenceTrack) :
    (track.points.length ≠ 144 → mapLocationToIndex loc track = 0) ∧
    (track.points.length = 144 →
      mapLocationToIndex loc track < 144 ∧
      (∀ j, j < 144 →
        trackDist loc track (mapLocationToIndex loc track) ≤ trackDist loc track j) ∧
      (∀ j, j < mapLocationToIndex loc track →
        trackDist loc track (mapLocationToIndex loc track) < trackDist loc track j) ∧
      (∀ k, k < 144 → (track.points.getD k dfltPt).x = loc.x →
        (track.points.getD k dfltPt).y = loc.y →
        mapLocationToIndex loc track ≤ k ∧
        trackDist loc track (mapLocationToIndex loc track) = 0)) := by
  constructor
  · intro h
    unfold mapLocationToIndex
    rw [if_pos h]
  · intro hlen
    have hne : track.points ≠ [] := by
      intro hnil
      rw [hnil] at hlen
      simp at hlen
    have hmain := scanClosest_main loc track.points hne
    have hidx : mapLocationToIndex loc track =
        (scanState loc track.points 0 (none, 0)).2 := by
      unfold mapLocationToIndex
      rw [if_neg (by simp [hlen])]
    have hmain1 : ∀ j, j < track.points.length →
        trackDist loc track ((scanState loc track.points 0 (none, 0)).2) ≤
          trackDist loc track j := hmain.2.1
    have hmain2 : ∀ j, j < (scanState loc track.points 0 (none, 0)).2 →
        trackDist loc track ((scanState loc track.points 0 (none, 0)).2) <
          trackDist loc track j := hmain.2.2
    rw [hidx]
    refine ⟨hlen ▸ hmain.1, fun j hj => hmain1 j (by omega),
      fun j hj => hmain2 j hj, fun k hk hx hy => ?_⟩
    have hk0 : trackDist loc track k = 0 := by
      unfold trackDist
      rw [hx, hy, distance2D_self]
    have hle : trackDist loc track ((scanState loc track.points 0 (none, 0)).2) ≤ 0 := by
      have h2 := hmain1 k (by omega)
      rw [hk0] at h2
      exact h2
    have hge : (0 : ℝ) ≤ trackDist loc track ((scanState loc track.points 0 (none, 0)).2) :=
      distance2D_nonneg _ _ _ _
    have heq0 : trackDist loc track ((scanState loc track.points 0 (none, 0)).2) = 0 :=
      le_antisymm hle hge
    refine ⟨?_, heq0⟩
    by_contra hgt
    push_neg at hgt
    have hcon := hmain2 k hgt
    rw [heq0, hk0] at hcon
    exact lt_irrefl 0 hcon


/-- C2 witness: a track without 144 points falls back to index 0. -/
theorem mapLocationToIndex_spec_witness : mapLocationToIndex dfltLoc trackW2 = 0 :=
  (mapLocationToIndex_spec dfltLoc trackW2).1 (by simp [trackW2])

/-- The boundary scan of the source equals the accumulator followed by the strict
spec scan seeded with the accumulator's last element. -/
theorem lapScan_append (locs : List Location) (thr : ℝ) :
    ∀ (steps i : Nat) (acc : List Nat), acc ≠ [] →
      lapScan locs thr i steps acc =
        acc ++ specLapScanGT locs thr i steps (acc.getLastD 0) := by
  intro steps
  induction steps with
  | zero =>
    intro i acc hne
    simp [lapScan, specLapScanGT]
  | succ steps ih =>
    intro i acc hne
    simp only [lapScan, specLapScanGT]
    by_cases h1 : distFirst locs i < thr
    · by_cases h2 : acc.getLastD 0 + 50 < i
      · have h2' : i - acc.getLastD 0 > 50 := by omega
        rw [if_pos h1, if_pos h2', if_pos ⟨h1, h2⟩]
        rw [ih (i + 1) (acc ++ [i]) (by simp)]
        simp
      · have h2' : ¬ i - acc.getLastD 0 > 50 := by omega
        rw [if_pos h1, if_neg h2', if_neg (by tauto)]
        exact ih (i + 1) acc hne
    · rw [if_neg h1, if_neg (by tauto)]
      exact ih (i + 1) acc hne

/-- Every recorded boundary of the strict spec scan is beyond the seed and at or
after the scan position. -/
theorem specLapScanGT_bounds (locs : List Location) (thr : ℝ) :
    ∀ (steps i prev x : Nat), x ∈ specLapScanGT locs thr i steps prev →
      prev < x ∧ i ≤ x := by
  intro steps
  induction steps with
  | zero =>
    intro i prev x hx
    simp [specLapScanGT] at hx
  | succ steps ih =>
    intro i prev x hx
    simp only [specLapScanGT] at hx
    by_cases hcond : distFirst locs i < thr ∧ prev + 50 < i
    · rw [if_pos hcond] at hx
      rcases List.mem_cons.mp hx with rfl | hx'
      · exact ⟨by omega, le_refl x⟩
      · have h3 := ih (i + 1) i x hx'
        exact ⟨by omega, by omega⟩
    · rw [if_neg hcond] at hx
      have h3 := ih (i + 1) prev x hx
      exact ⟨h3.1, by omega⟩

/-- The strict spec scan records boundaries in strictly increasing order. -/
theorem specLapScanGT_pairwise (locs : List Location) (thr : ℝ) :
    ∀ (steps i prev : Nat), (specLapScanGT locs thr i steps prev).Pairwise (· < ·) := by
  intro steps
  induction steps with
  | zero =>
    intro i prev
    simp [specLapScanGT]
  | succ steps ih =>
    intro i prev
    simp only [specLapScanGT]
    by_cases hcond : distFirst locs i < thr ∧ prev + 50 < i
    · rw [if_pos hcond]
      refine List.pairwise_cons.mpr ⟨fun x hx => ?_, ih (i + 1) i⟩
      have h3 := specLapScanGT_bounds locs thr steps (i + 1) i x hx
      omega
    · rw [if_neg hcond]
      exact ih (i + 1) prev

/-- The source's `lapStarts` list in spec-scan form. -/
theorem mapLapStarts_eq (locs : List Location) :
    mapLapStarts locs =
      0 :: specLapScanGT locs (lapThreshold locs) 50 (locs.length - 50) 0 := by
  unfold mapLapStarts
  rw [lapScan_append locs (lapThreshold locs) (locs.length - 50) 50 [0] (by simp)]
  simp

/-- The `lapStarts` list is strictly increasing. -/
theorem mapLapStarts_pairwise (locs : List Location) :
    (mapLapStarts locs).Pairwise (· < ·) := by
  rw [mapLapStarts_eq]
  refine List.pairwise_cons.mpr ⟨fun x hx => ?_, specLapScanGT_pairwise locs _ _ _ _⟩
  have h3 := specLapScanGT_bounds locs (lapThreshold locs) (locs.length - 50) 50 0 x hx
  omega

/-- The `lapStarts` list is never empty. -/
theorem mapLapStarts_ne_nil (locs : List Location) : mapLapStarts locs ≠ [] := by
  rw [mapLapStarts_eq]
  simp

/-- The `lapStarts` list starts with boundary 0. -/
theorem mapLapStarts_head (locs : List Location) : (mapLapStarts locs).getD 0 0 = 0 := by
  rw [mapLapStarts_eq]
  rfl

/-- Characterisation of the backward lap-index scan: with the invariant that all
boundaries at positions at or after `k` lie beyond `i`, the scan from `k` returns
the position of the greatest boundary at or before `i`. -/
theorem findLapIdxAux_spec (starts : List Nat) (i : Nat)
    (hlen : 0 < starts.length) (hh : starts.getD 0 0 = 0) :
    ∀ k, k ≤ starts.length →
      (∀ j, k ≤ j → j < starts.length → i < starts.getD j 0) →
      findLapIdxAux starts i k < starts.length ∧
      starts.getD (findLapIdxAux starts i k) 0 ≤ i ∧
      (∀ j, findLapIdxAux starts i k < j → j < starts.length → i < starts.getD j 0) := by
  intro k
  induction k with
  | zero =>
    intro hk hinv
    exfalso
    have h0 := hinv 0 (le_refl 0) hlen
    rw [hh] at h0
    omega
  | succ k ih =>
    intro hk hinv
    simp only [findLapIdxAux]
    by_cases hle : starts.getD k 0 ≤ i
    · rw [if_pos hle]
      exact ⟨by omega, hle, fun j hj hj2 => hinv j (by omega) hj2⟩
    · rw [if_neg hle]
      refine ih (by omega) (fun j hj hj2 => ?_)
      rcases Nat.eq_or_lt_of_le hj with heq | hlt
      · rw [← heq]
        exact not_le.mp hle
      · exact hinv j hlt hj2

/-- The lap index of sample `i`: the chosen position is in range, its boundary is at
or before `i`, and all later boundaries are after `i`. -/
theorem findLapIndex_spec (starts : List Nat) (i : Nat)
    (hlen : 0 < starts.length) (hh : starts.getD 0 0 = 0) :
    findLapIndex starts i < starts.length ∧
    starts.getD (findLapIndex starts i) 0 ≤ i ∧
    (∀ j, findLapIndex starts i < j → j < starts.length → i < starts.getD j 0) :=
  findLapIdxAux_spec starts i hlen hh starts.length (le_refl _)
    (fun j hj hj2 => absurd hj2 (by omega))

/-- Positions of a strictly increasing list compare like their entries. -/
theorem sorted_getD_lt (starts : List Nat) (hpw : starts.Pairwise (· < ·))
    {a b : Nat} (hab : a < b) (hb : b < starts.length) :
    starts.getD a 0 < starts.getD b 0 := by
  rw [List.getD_eq_getElem _ _ (by omega), List.getD_eq_getElem _ _ hb]
  exact List.pairwise_iff_getElem.mp hpw a b (by omega) hb hab

/-- Cumulative arc length is monotone: each segment contributes a nonnegative
distance. -/
theorem cumDist_mono (locs : List Location) {a b : Nat} (hab : a ≤ b) :
    cumDist locs a ≤ cumDist locs b := by
  induction b with
  | zero => rw [Nat.le_zero.mp hab]
  | succ b ih =>
    by_cases ha : a = b + 1
    · rw [ha]
    · have h1 : cumDist locs a ≤ cumDist locs b := ih (by omega)
      have h2 : cumDist locs b ≤ cumDist locs (b + 1) := by
        simp only [cumDist]
        exact le_add_of_nonneg_right (distance2D_nonneg _ _ _ _)
      exact le_trans h1 h2

/-- C6 (amended): the lap boundaries of `mapLocationsToIndices` are exactly those of
the spec's scan with the recency condition read strictly — a boundary is recorded at
`i` when the planar distance back to the first sample is below five mean segment
lengths and strictly more than 50 samples have elapsed since the previous recorded
lap start. -/
theorem mapLapStarts_spec (locs : List Location) :
    mapLapStarts locs = specLapStartsStrict locs := by
  rw [mapLapStarts_eq]
  rfl

/-- C10: `mapLocationsToIndices` preserves length, maps the empty input to the empty
output (no error), and assigns index 0 to the first sample of every non-empty
input. -/
theorem mapLocationsToIndices_basic (locs : List Location) :
    (mapLocationsToIndices locs).length = locs.length ∧
    mapLocationsToIndices [] = [] ∧
    (locs ≠ [] → (mapLocationsToIndices locs).getD 0 0 = 0) := by
  refine ⟨?_, by simp [mapLocationsToIndices], fun hne => ?_⟩
  · unfold mapLocationsToIndices
    by_cases h : locs.length = 0
    · rw [if_pos h]
      simp [h]
    · rw [if_neg h]
      simp
  · have hlen : 0 < locs.length := by
      cases locs with
      | nil => exact absurd rfl hne
      | cons a l => simp
    have hD : (mapLocationsToIndices locs).getD 0 0 =
        indexAt locs (mapLapStarts locs) 0 := by
      unfold mapLocationsToIndices
      rw [if_neg (by omega)]
      exact getD_range_map _ _ _ _ hlen
    rw [hD]
    have hh := mapLapStarts_head locs
    have hl : 0 < (mapLapStarts locs).length := by
      rw [mapLapStarts_eq]
      simp
    obtain ⟨hfl, hfle, hfgt⟩ := findLapIndex_spec (mapLapStarts locs) 0 hl hh
    have hs0 : (mapLapStarts locs).getD (findLapIndex (mapLapStarts locs) 0) 0 = 0 :=
      Nat.le_zero.mp hfle
    simp only [indexAt]
    rw [hs0]
    simp

/-- Reading the assigned index of sample `i` reaches the assignment-loop body. -/
theorem mapLocationsToIndices_getD (locs : List Location) (i : Nat)
    (hi : i < locs.length) :
    (mapLocationsToIndices locs).getD i 0 = indexAt locs (mapLapStarts locs) i := by
  unfold mapLocationsToIndices
  rw [if_neg (by omega)]
  exact getD_range_map _ _ _ _ hi

/-- C7: every sample of a non-empty input is assigned to the most recent lap
boundary `s` at or before it; with `e` the sample just before the next boundary (or
the last sample for the final lap), its index is the floor of 144 times the covered
fraction of the lap's arc length, clamped to 143, and 0 when the lap has zero arc
length. -/
theorem mapLocationsToIndices_assignment (locs : List Location) (hne : locs ≠ [])
    (i : Nat) (hi : i < locs.length) :
    ∃ s e,
      s ∈ mapLapStarts locs ∧ s ≤ i ∧
      (∀ b ∈ mapLapStarts locs, b ≤ i → b ≤ s) ∧
      ((∃ b ∈ mapLapStarts locs, i < b ∧ e = b - 1 ∧
          ∀ c ∈ mapLapStarts locs, i < c → b ≤ c) ∨
        ((∀ b ∈ mapLapStarts locs, b ≤ i) ∧ e = locs.length - 1)) ∧
      (mapLocationsToIndices locs).getD i 0 =
        (if cumDist locs e = cumDist locs s then 0
         else min 143 (Int.floor
           (144 * (cumDist locs i - cumDist locs s) /
             (cumDist locs e - cumDist locs s)))) := by
  have hpw := mapLapStarts_pairwise locs
  have hh := mapLapStarts_head locs
  have hl : 0 < (mapLapStarts locs).length := by
    rw [mapLapStarts_eq]
    simp
  obtain ⟨hfl, hfle, hfgt⟩ := findLapIndex_spec (mapLapStarts locs) i hl hh
  set starts := mapLapStarts locs with hstarts
  set li := findLapIndex starts i with hli
  refine ⟨starts.getD li 0,
    (if li + 1 < starts.length then starts.getD (li + 1) 0 - 1 else locs.length - 1),
    ?_, hfle, ?_, ?_, ?_⟩
  · rw [List.getD_eq_getElem _ _ hfl]
    exact List.getElem_mem hfl
  · intro b hb hbi
    obtain ⟨jb, hjb, hjbe⟩ := List.mem_iff_getElem.mp hb
    rw [← List.getD_eq_getElem starts 0 hjb] at hjbe
    by_cases hcmp : jb ≤ li
    · rcases Nat.eq_or_lt_of_le hcmp with heq | hlt
      · rw [← hjbe, heq]
      · calc b = starts.getD jb 0 := hjbe.symm
          _ ≤ starts.getD li 0 := le_of_lt (sorted_getD_lt starts hpw hlt hfl)
    · exfalso
      have hgt := hfgt jb (by omega) hjb
      omega
  · by_cases hcase : li + 1 < starts.length
    · left
      refine ⟨starts.getD (li + 1) 0, ?_, hfgt (li + 1) (by omega) hcase, ?_, ?_⟩
      · rw [List.getD_eq_getElem _ _ hcase]
        exact List.getElem_mem hcase
      · rw [if_pos hcase]
      · intro c hc hic
        obtain ⟨jc, hjc, hjce⟩ := List.mem_iff_getElem.mp hc
        rw [← List.getD_eq_getElem starts 0 hjc] at hjce
        by_cases hj2 : jc ≤ li
        · exfalso
          have hle2 : starts.getD jc 0 ≤ starts.getD li 0 := by
            rcases Nat.eq_or_lt_of_le hj2 with heq | hlt
            · rw [heq]
            · exact le_of_lt (sorted_getD_lt starts hpw hlt hfl)
          omega
        · have hge2 : starts.getD (li + 1) 0 ≤ starts.getD jc 0 := by
            rcases Nat.eq_or_lt_of_le (by omega : li + 1 ≤ jc) with heq | hlt
            · rw [heq]
            · exact le_of_lt (sorted_getD_lt starts hpw hlt hjc)
          omega
    · right
      refine ⟨fun b hb => ?_, if_neg hcase ▸ rfl⟩
      obtain ⟨jb, hjb, hjbe⟩ := List.mem_iff_getElem.mp hb
      rw [← List.getD_eq_getElem starts 0 hjb] at hjbe
      have hjle : jb ≤ li := by omega
      have hmono : starts.getD jb 0 ≤ starts.getD li 0 := by
        rcases Nat.eq_or_lt_of_le hjle with heq | hlt
        · rw [heq]
        · exact le_of_lt (sorted_getD_lt starts hpw hlt hfl)
      omega
  · rw [mapLocationsToIndices_getD locs i hi, ← hstarts]
    simp only [indexAt]
    rw [← hli]
    set s := starts.getD li 0 with hs
    set e := (if li + 1 < starts.length then starts.getD (li + 1) 0 - 1
      else locs.length - 1) with he
    by_cases hz : cumDist locs e = cumDist locs s
    · rw [if_pos hz, if_pos hz]
    · rw [if_neg hz, if_neg hz]
      have harith : (cumDist locs i - cumDist locs s) / (cumDist locs e - cumDist locs s) * 144
          = 144 * (cumDist locs i - cumDist locs s) / (cumDist locs e - cumDist locs s) := by
        ring
      rw [harith]
      set idx := Int.floor (144 * (cumDist locs i - cumDist locs s) /
        (cumDist locs e - cumDist locs s)) with hidx
      rcases le_or_lt 144 idx with hge | hlt
      · rw [if_pos hge]
        exact (min_eq_left (by omega)).symm
      · rw [if_neg (not_le.mpr hlt)]
        exact (min_eq_right (by omega)).symm

/-- C7 witness: the single-sample input, whose only lap is degenerate. -/
theorem mapLocationsToIndices_assignment_witness :
    ∃ s e, s ∈ mapLapStarts [dfltLoc] ∧ s ≤ 0 ∧
      (∀ b ∈ mapLapStarts [dfltLoc], b ≤ 0 → b ≤ s) ∧
      ((∃ b ∈ mapLapStarts [dfltLoc], 0 < b ∧ e = b - 1 ∧
          ∀ c ∈ mapLapStarts [dfltLoc], 0 < c → b ≤ c) ∨
        ((∀ b ∈ mapLapStarts [dfltLoc], b ≤ 0) ∧ e = [dfltLoc].length - 1)) ∧
      (mapLocationsToIndices [dfltLoc]).getD 0 0 =
        (if cumDist [dfltLoc] e = cumDist [dfltLoc] s then 0
         else min 143 (Int.floor
           (144 * (cumDist [dfltLoc] 0 - cumDist [dfltLoc] s) /
             (cumDist [dfltLoc] e - cumDist [dfltLoc] s)))) :=
  mapLocationsToIndices_assignment [dfltLoc] (by simp) 0 (by simp)

/-- Planar distance is symmetric. -/
theorem distance2D_comm (x1 y1 x2 y2 : Int) :
    distance2D x1 y1 x2 y2 = distance2D x2 y2 x1 y1 := by
  simp only [distance2D]
  congr 1
  push_cast
  ring

/-- Planar distance along `k` copies of a fixed displacement. -/
theorem distance2D_smul (a b : Int) (k : Nat) (x1 y1 : Int) :
    distance2D x1 y1 (x1 + (k : Int) * a) (y1 + (k : Int) * b) =
      (k : ℝ) * Real.sqrt ((a : ℝ) * (a : ℝ) + (b : ℝ) * (b : ℝ)) := by
  simp only [distance2D]
  have hsum : ((x1 + (k : Int) * a - x1 : Int) : ℝ) * ((x1 + (k : Int) * a - x1 : Int) : ℝ) +
      ((y1 + (k : Int) * b - y1 : Int) : ℝ) * ((y1 + (k : Int) * b - y1 : Int) : ℝ) =
      ((k : ℝ) * (k : ℝ)) * ((a : ℝ) * (a : ℝ) + (b : ℝ) * (b : ℝ)) := by
    push_cast
    ring
  rw [hsum, Real.sqrt_mul (by positivity), Real.sqrt_mul_self (by positivity)]

/-- Cumulative arc length is nonnegative. -/
theorem cumDist_nonneg (locs : List Location) (m : Nat) : 0 ≤ cumDist locs m :=
  cumDist_mono locs (Nat.zero_le m)

/-- Sample `j` of the straight-line family. -/
theorem lineLocs_getD (n : Nat) (x0 y0 dx dy z0 : Int) (j : Nat) (hj : j < n) :
    (lineLocs n x0 y0 dx dy z0).getD j dfltLoc =
      ⟨"", 0, 0, 0, x0 + (j : Int) * dx, y0 + (j : Int) * dy, z0⟩ := by
  simp only [lineLocs]
  rw [getD_range_map _ _ _ _ hj]

/-- X coordinate of sample `j` of the straight-line family. -/
theorem lineLocs_getD_x (n : Nat) (x0 y0 dx dy z0 : Int) (j : Nat) (hj : j < n) :
    ((lineLocs n x0 y0 dx dy z0).getD j dfltLoc).x = x0 + (j : Int) * dx := by
  rw [lineLocs_getD n x0 y0 dx dy z0 j hj]

/-- Y coordinate of sample `j` of the straight-line family. -/
theorem lineLocs_getD_y (n : Nat) (x0 y0 dx dy z0 : Int) (j : Nat) (hj : j < n) :
    ((lineLocs n x0 y0 dx dy z0).getD j dfltLoc).y = y0 + (j : Int) * dy := by
  rw [lineLocs_getD n x0 y0 dx dy z0 j hj]

/-- Consecutive samples of the straight-line family are one step length apart. -/
theorem lineLocs_dist_step (n : Nat) (x0 y0 dx dy z0 : Int) (j : Nat) (hj : j + 1 < n) :
    distance2D ((lineLocs n x0 y0 dx dy z0).getD j dfltLoc).x
      ((lineLocs n x0 y0 dx dy z0).getD j dfltLoc).y
      ((lineLocs n x0 y0 dx dy z0).getD (j + 1) dfltLoc).x
      ((lineLocs n x0 y0 dx dy z0).getD (j + 1) dfltLoc).y =
      Real.sqrt ((dx : ℝ) * (dx : ℝ) + (dy : ℝ) * (dy : ℝ)) := by
  rw [lineLocs_getD_x n x0 y0 dx dy z0 j (by omega),
    lineLocs_getD_y n x0 y0 dx dy z0 j (by omega),
    lineLocs_getD_x n x0 y0 dx dy z0 (j + 1) hj,
    lineLocs_getD_y n x0 y0 dx dy z0 (j + 1) hj]
  simp only [distance2D]
  congr 1
  push_cast
  ring

/-- Cumulative arc length of the straight-line family grows linearly. -/
theorem lineLocs_cum (n : Nat) (x0 y0 dx dy z0 : Int) :
    ∀ j, j < n → cumDist (lineLocs n x0 y0 dx dy z0) j =
      (j : ℝ) * Real.sqrt ((dx : ℝ) * (dx : ℝ) + (dy : ℝ) * (dy : ℝ)) := by
  intro j
  induction j with
  | zero =>
    intro hj
    simp [cumDist]
  | succ j ih =>
    intro hj
    simp only [cumDist]
    rw [ih (by omega), lineLocs_dist_step n x0 y0 dx dy z0 j hj]
    push_cast
    ring

/-- Distance back to the first sample of the straight-line family. -/
theorem lineLocs_distFirst (n : Nat) (x0 y0 dx dy z0 : Int) (i : Nat) (hi : i < n)
    (hn : 0 < n) :
    distFirst (lineLocs n x0 y0 dx dy z0) i =
      (i : ℝ) * Real.sqrt ((dx : ℝ) * (dx : ℝ) + (dy : ℝ) * (dy : ℝ)) := by
  unfold distFirst
  rw [lineLocs_getD_x n x0 y0 dx dy z0 i hi, lineLocs_getD_y n x0 y0 dx dy z0 i hi,
    lineLocs_getD_x n x0 y0 dx dy z0 0 hn, lineLocs_getD_y n x0 y0 dx dy z0 0 hn]
  simp only [Nat.cast_zero, zero_mul, add_zero]
  rw [distance2D_comm]
  exact distance2D_smul dx dy i x0 y0

/-- The strict spec scan records nothing when no scanned sample is below the
threshold. -/
theorem specLapScanGT_nil (locs : List Location) (thr : ℝ) :
    ∀ (steps i prev : Nat), (∀ k, k < steps → ¬ (distFirst locs (i + k) < thr)) →
      specLapScanGT locs thr i steps prev = [] := by
  intro steps
  induction steps with
  | zero =>
    intro i prev h
    rfl
  | succ steps ih =>
    intro i prev h
    simp only [specLapScanGT]
    rw [if_neg (by
      intro hcon
      exact (h 0 (by omega)) (by simpa using hcon.1))]
    refine ih (i + 1) prev (fun k hk => ?_)
    have h1 := h (k + 1) (by omega)
    rw [(by omega : i + (k + 1) = i + 1 + k)] at h1
    exact h1

/-- The straight-line family never records a lap boundary after the first sample:
every scanned sample is at least 50 step lengths out, while the threshold is five
step lengths. -/
theorem lineLocs_lapStarts (n : Nat) (x0 y0 dx dy z0 : Int) (hn : 1 ≤ n) :
    mapLapStarts (lineLocs n x0 y0 dx dy z0) = [0] := by
  have hlen : (lineLocs n x0 y0 dx dy z0).length = n := by
    simp [lineLocs]
  rw [mapLapStarts_eq]
  rw [specLapScanGT_nil _ _ _ _ _ ?hscan]
  case hscan =>
    intro k hk
    rw [hlen] at hk
    have hkn : 50 + k < n := by omega
    have hn51 : 51 ≤ n := by omega
    have hthr : lapThreshold (lineLocs n x0 y0 dx dy z0) =
        Real.sqrt ((dx : ℝ) * (dx : ℝ) + (dy : ℝ) * (dy : ℝ)) * 5 := by
      unfold lapThreshold totalDistance
      rw [hlen, lineLocs_cum n x0 y0 dx dy z0 (n - 1) (by omega)]
      rw [Nat.cast_sub hn, Nat.cast_one]
      have hne1 : ((n : ℝ) - 1) ≠ 0 := by
        have h51 : (51 : ℝ) ≤ (n : ℝ) := by exact_mod_cast hn51
        intro hzero
        have : (n : ℝ) = 1 := by linarith
        linarith
      rw [mul_div_cancel_left₀ _ hne1]
    rw [hthr, lineLocs_distFirst n x0 y0 dx dy z0 (50 + k) hkn (by omega)]
    rw [not_lt, mul_comm (Real.sqrt ((dx : ℝ) * (dx : ℝ) + (dy : ℝ) * (dy : ℝ))) 5]
    refine mul_le_mul_of_nonneg_right ?_ (Real.sqrt_nonneg _)
    push_cast
    have hk0 : (0 : ℝ) ≤ (k : ℝ) := Nat.cast_nonneg k
    linarith

/-- Cumulative arc length at the first sample is zero. -/
theorem cumDist_zero (locs : List Location) : cumDist locs 0 = 0 := rfl

/-- The lap index against the single boundary list `[0]` is 0. -/
theorem findLapIndex_single (i : Nat) : findLapIndex [0] i = 0 := by
  simp [findLapIndex, findLapIdxAux]

/-- C8: a straight-line input of `n` evenly spaced samples detects no lap boundary
after the first sample, and its index sequence starts at 0, is monotonically
non-decreasing, and never exceeds 143. -/
theorem lineLocs_monotone (n : Nat) (x0 y0 dx dy z0 : Int) (hn : 1 ≤ n) :
    mapLapStarts (lineLocs n x0 y0 dx dy z0) = [0] ∧
    (mapLocationsToIndices (lineLocs n x0 y0 dx dy z0)).getD 0 0 = 0 ∧
    (∀ i j, i ≤ j → j < n →
      (mapLocationsToIndices (lineLocs n x0 y0 dx dy z0)).getD i 0 ≤
        (mapLocationsToIndices (lineLocs n x0 y0 dx dy z0)).getD j 0) ∧
    (∀ i, i < n →
      (mapLocationsToIndices (lineLocs n x0 y0 dx dy z0)).getD i 0 ≤ 143) := by
  have hlen : (lineLocs n x0 y0 dx dy z0).length = n := by
    simp [lineLocs]
  have hstarts := lineLocs_lapStarts n x0 y0 dx dy z0 hn
  have hval : ∀ i, i < n →
      (mapLocationsToIndices (lineLocs n x0 y0 dx dy z0)).getD i 0 =
        (if cumDist (lineLocs n x0 y0 dx dy z0) (n - 1) = 0 then 0
         else (if (144 : Int) ≤ Int.floor (cumDist (lineLocs n x0 y0 dx dy z0) i /
                 cumDist (lineLocs n x0 y0 dx dy z0) (n - 1) * 144) then (143 : Int)
               else Int.floor (cumDist (lineLocs n x0 y0 dx dy z0) i /
                 cumDist (lineLocs n x0 y0 dx dy z0) (n - 1) * 144))) := by
    intro i hi
    rw [mapLocationsToIndices_getD _ i (by omega), hstarts]
    simp only [indexAt, findLapIndex_single, hlen]
    norm_num [cumDist_zero]
  refine ⟨hstarts, ?_, ?_, ?_⟩
  · rw [hval 0 (by omega)]
    by_cases hz : cumDist (lineLocs n x0 y0 dx dy z0) (n - 1) = 0
    · rw [if_pos hz]
    · rw [if_neg hz, cumDist_zero]
      norm_num
  · intro i j hij hj
    rw [hval i (by omega), hval j hj]
    by_cases hz : cumDist (lineLocs n x0 y0 dx dy z0) (n - 1) = 0
    · rw [if_pos hz, if_pos hz]
    · rw [if_neg hz, if_neg hz]
      have hpos : 0 < cumDist (lineLocs n x0 y0 dx dy z0) (n - 1) :=
        lt_of_le_of_ne (cumDist_nonneg _ _) (Ne.symm hz)
      have hle : cumDist (lineLocs n x0 y0 dx dy z0) i ≤
          cumDist (lineLocs n x0 y0 dx dy z0) j := cumDist_mono _ hij
      have hdiv : cumDist (lineLocs n x0 y0 dx dy z0) i /
            cumDist (lineLocs n x0 y0 dx dy z0) (n - 1) * 144 ≤
          cumDist (lineLocs n x0 y0 dx dy z0) j /
            cumDist (lineLocs n x0 y0 dx dy z0) (n - 1) * 144 :=
        mul_le_mul_of_nonneg_right ((div_le_div_iff_of_pos_right hpos).mpr hle)
          (by norm_num)
      have hfl := Int.floor_le_floor hdiv
      split_ifs <;> omega
  · intro i hi
    rw [hval i hi]
    split_ifs <;> omega

/-- C8 witness: the one-sample line. -/
theorem lineLocs_monotone_witness :
    mapLapStarts (lineLocs 1 0 0 0 0 0) = [0] ∧
    (mapLocationsToIndices (lineLocs 1 0 0 0 0 0)).getD 0 0 = 0 :=
  ⟨(lineLocs_monotone 1 0 0 0 0 0 (by norm_num)).1,
    (lineLocs_monotone 1 0 0 0 0 0 (by norm_num)).2.1⟩

/-- C10 witness: a one-sample input gets first index 0. -/
theorem mapLocationsToIndices_basic_witness :
    (mapLocationsToIndices [dfltLoc]).getD 0 0 = 0 :=
  (mapLocationsToIndices_basic [dfltLoc]).2.2 (by simp)

/-- C3: the claim says `start` errors with already-started exactly when the flag is
already true, and otherwise proceeds.  The first variant (line 207) behaves this way,
but the second variant's guard (line 857) is inverted: with the flag false the swap
succeeds and the call errors with "already started" (leaving the flag set), while
with the flag true it proceeds to launch the pipeline.  The code contradicts its own
error message, so the claim is right and the second variant's guard is a slip. -/
theorem start_guard_divergence :
    (M1.start env0 false (.intList [44])).2 = .ok () ∧
    M1.start env0 true (.intList [44]) = (true, .error ("already started")) ∧
    M2.start env0 false = (true, .error ("already started")) ∧
    (M2.start env0 true).2 = .ok () :=
  ⟨rfl, rfl, rfl, rfl⟩

/-- C4: invalid `start` payloads are rejected, but the first variant's early returns
leave the `started` flag true (the compare-and-swap at line 207 ran before payload
validation and is not undone), so a following well-formed `start` is rejected with
"already started" — the code does mutate state on configuration errors, against the
claim. -/
theorem start_invalid_payload_flag :
    M1.start env0 false (.anyList []) =
      (true, .error ("start command requires at least one driver number")) ∧
    M1.start env0 false .notList =
      (true, .error ("start command expects a list of integers")) ∧
    M1.start env0 false (.anyList [.gOther]) =
      (true, .error ("start command: element at index 0 is not a number")) ∧
    (M1.start env0 true (.intList [44])).2 = .error ("already started") ∧
    (M1.start env0 false (.intList [44])).2 = .ok () :=
  ⟨rfl, rfl, rfl, rfl, rfl⟩

/-- C9: on a tick whose window fetch fails, the fetcher sends nothing, does not close
the channel, and leaves the whole fetcher state (lastFetchedTime included) unchanged,
so the next tick retries from the same state. -/
theorem fetcher_error_noop (env : FetchEnv) (st : FetcherState) (bufLen bufCap : Nat)
    (e : String) (hbuf : (bufLen : Rat) / (bufCap : Rat) < bufferLowThreshold)
    (herr : env.fetchRes = .error e) :
    M1.fetcher env st bufLen bufCap = ⟨st, [], false⟩ := by
  unfold M1.fetcher
  rw [if_pos hbuf, herr]

/-- C9 witness: a concrete erroring tick against an empty 500-slot buffer. -/
theorem fetcher_error_noop_witness :
    M1.fetcher fetchEnvErr st0 0 500 = ⟨st0, [], false⟩ :=
  fetcher_error_noop fetchEnvErr st0 0 500 ("connection reset")
    (by norm_num [bufferLowThreshold]) rfl

/-- Characterisation of the lap-detection scan of `generateReferenceTrack`: it
returns the first scanned index within the threshold, or the last index of the
input when none is. -/
theorem findLapEndAux_spec (locs : List Location) (sx sy : Int) :
    ∀ (steps i : Nat),
      (findLapEndAux locs sx sy i steps = locs.length - 1 ∧
        ∀ k, k < steps →
          ¬ (distance2D (locs.getD (i + k) dfltLoc).x (locs.getD (i + k) dfltLoc).y
              sx sy < 1000)) ∨
      (∃ k, k < steps ∧ findLapEndAux locs sx sy i steps = i + k ∧
        distance2D (locs.getD (i + k) dfltLoc).x (locs.getD (i + k) dfltLoc).y sx sy
          < 1000 ∧
        ∀ j, j < k →
          ¬ (distance2D (locs.getD (i + j) dfltLoc).x (locs.getD (i + j) dfltLoc).y
              sx sy < 1000)) := by
  intro steps
  induction steps with
  | zero =>
    intro i
    left
    exact ⟨rfl, fun k hk => absurd hk (by omega)⟩
  | succ steps ih =>
    intro i
    by_cases hd : distance2D (locs.getD i dfltLoc).x (locs.getD i dfltLoc).y sx sy < 1000
    · right
      refine ⟨0, by omega, ?_, by simpa using hd, fun j hj => absurd hj (by omega)⟩
      simp only [findLapEndAux]
      rw [if_pos hd]
      omega
    · rcases ih (i + 1) with ⟨heq, hnone⟩ | ⟨k, hk, heq, hdk, hprev⟩
      · left
        constructor
        · simp only [findLapEndAux]
          rw [if_neg hd]
          exact heq
        · intro k hk
          cases k with
          | zero => simpa using hd
          | succ k =>
            have h1 := hnone k (by omega)
            rw [(by omega : i + 1 + k = i + (k + 1))] at h1
            exact h1
      · right
        refine ⟨k + 1, by omega, ?_, ?_, ?_⟩
        · simp only [findLapEndAux]
          rw [if_neg hd, heq]
          omega
        · rw [(by omega : i + (k + 1) = i + 1 + k)]
          exact hdk
        · intro j hj
          cases j with
          | zero => simpa using hd
          | succ j =>
            have h1 := hprev j (by omega)
            rw [(by omega : i + 1 + j = i + (j + 1))] at h1
            exact h1

/-- C5 (amended): lap detection scans from index 100 for the first sample whose
planar distance to the start point is below 1000, defaulting to the last sample;
the lap actually used for resampling is the detected prefix when it has at least
144 samples, and the entire input otherwise (also when nothing is detected). -/
theorem lapUsed_spec (locs : List Location) (sp : TrackPoint) :
    ((100 ≤ findLapEnd locs sp ∧ findLapEnd locs sp < locs.length ∧
        distance2D (locs.getD (findLapEnd locs sp) dfltLoc).x
          (locs.getD (findLapEnd locs sp) dfltLoc).y sp.x sp.y < 1000 ∧
        ∀ i, 100 ≤ i → i < findLapEnd locs sp →
          ¬ (distance2D (locs.getD i dfltLoc).x (locs.getD i dfltLoc).y sp.x sp.y
              < 1000)) ∨
      (findLapEnd locs sp = locs.length - 1 ∧
        ∀ i, 100 ≤ i → i < locs.length →
          ¬ (distance2D (locs.getD i dfltLoc).x (locs.getD i dfltLoc).y sp.x sp.y
              < 1000))) ∧
    lapUsed locs sp =
      (if (specDetectedLap locs sp).length < 144 then locs
       else specDetectedLap locs sp) := by
  constructor
  · rcases findLapEndAux_spec locs sp.x sp.y (locs.length - 100) 100 with
      ⟨heq, hnone⟩ | ⟨k, hk, heq, hdk, hprev⟩
    · right
      refine ⟨heq, fun i hi1 hi2 => ?_⟩
      have h1 := hnone (i - 100) (by omega)
      rw [(by omega : 100 + (i - 100) = i)] at h1
      exact h1
    · left
      unfold findLapEnd
      rw [heq]
      refine ⟨by omega, by omega, hdk, fun i hi1 hi2 => ?_⟩
      have h1 := hprev (i - 100) (by omega)
      rw [(by omega : 100 + (i - 100) = i)] at h1
      exact h1
  · rfl

/-- C5 witness: on the empty input nothing is detected and the whole (empty) input
is the lap. -/
theorem lapUsed_spec_witness : lapUsed [] dfltPt = [] := by
  rw [(lapUsed_spec [] dfltPt).2]
  simp [specDetectedLap]

/-- C5 counterexample: on 150 samples all placed at the start point, the detection
fires at index 100, the detected prefix has 101 < 144 samples, and the lap actually
used is the entire 150-sample input — not the prefix the claim prescribes. -/
theorem lapUsed_counterexample :
    144 ≤ cex5.length ∧ findLapEnd cex5 sp5 = 100 ∧ lapUsed cex5 sp5 = cex5 ∧
      (specDetectedLap cex5 sp5).length = 101 ∧
      lapUsed cex5 sp5 ≠ specDetectedLap cex5 sp5 := by
  have hlen : cex5.length = 150 := by simp [cex5]
  have hend : findLapEnd cex5 sp5 = 100 := by
    unfold findLapEnd
    rw [hlen]
    show findLapEndAux cex5 sp5.x sp5.y 100 (49 + 1) = 100
    simp only [findLapEndAux]
    have hget : cex5.getD 100 dfltLoc = cex5loc := by
      simp only [cex5]
      rw [getD_range_map _ _ _ _ (by norm_num)]
    rw [hget]
    rw [if_pos (by
      show distance2D cex5loc.x cex5loc.y sp5.x sp5.y < 1000
      rw [show distance2D cex5loc.x cex5loc.y sp5.x sp5.y =
          distance2D 100 5000 100 5000 from rfl, distance2D_self]
      norm_num)]
  have hused : lapUsed cex5 sp5 = cex5 := by
    simp only [lapUsed, hend]
    rw [if_pos (by rw [List.length_take, hlen]; norm_num)]
  have hspec : (specDetectedLap cex5 sp5).length = 101 := by
    simp only [specDetectedLap, hend]
    rw [List.length_take, hlen]
    omega
  refine ⟨by rw [hlen]; norm_num, hend, hused, hspec, ?_⟩
  intro hcon
  rw [hused] at hcon
  have hcl := congrArg List.length hcon
  rw [hlen, hspec] at hcl
  norm_num at hcl

/-- Horizontal planar distance is the absolute x difference. -/
theorem distance2D_horiz (x1 y x2 : Int) :
    distance2D x1 y x2 y = |((x2 - x1 : Int) : ℝ)| := by
  simp only [distance2D, sub_self, Int.cast_zero, mul_zero, add_zero]
  exact Real.sqrt_mul_self_eq_abs _

/-- Unfolding equation of the cumulative arc length. -/
theorem cumDist_succ (locs : List Location) (i : Nat) :
    cumDist locs (i + 1) = cumDist locs i +
      distance2D (locs.getD i dfltLoc).x (locs.getD i dfltLoc).y
        (locs.getD (i + 1) dfltLoc).x (locs.getD (i + 1) dfltLoc).y := rfl

/-- Sample `j` of the C6 counterexample input. -/
theorem cex6_getD (j : Nat) (hj : j < 51) : cex6.getD j dfltLoc = cex6f j := by
  simp only [cex6]
  rw [getD_range_map _ _ _ _ hj]

/-- Cumulative arc length of the C6 counterexample along the outward march. -/
theorem cex6_cum : ∀ j, j ≤ 49 → cumDist cex6 j = 10 * (j : ℝ) := by
  intro j
  induction j with
  | zero =>
    intro _
    simp [cumDist]
  | succ j ih =>
    intro hj
    rw [cumDist_succ]
    rw [ih (by omega), cex6_getD j (by omega), cex6_getD (j + 1) (by omega)]
    have hfj : cex6f j = ⟨"", 0, 0, 0, 10 * (j : Int), 0, 0⟩ := by
      unfold cex6f
      rw [if_neg (by omega)]
    have hfj1 : cex6f (j + 1) = ⟨"", 0, 0, 0, 10 * ((j + 1 : Nat) : Int), 0, 0⟩ := by
      unfold cex6f
      rw [if_neg (by omega)]
    rw [hfj, hfj1]
    show 10 * (j : ℝ) + distance2D (10 * (j : Int)) 0 (10 * ((j + 1 : Nat) : Int)) 0
        = 10 * ((j + 1 : Nat) : ℝ)
    rw [distance2D_horiz]
    rw [show ((10 * ((j + 1 : Nat) : Int) - 10 * (j : Int) : Int) : ℝ) = 10 from by
      push_cast
      ring]
    rw [show |(10 : ℝ)| = 10 from by norm_num]
    push_cast
    ring

/-- Total arc length of the C6 counterexample. -/
theorem cex6_cum50 : cumDist cex6 50 = 980 := by
  show cumDist cex6 (49 + 1) = 980
  rw [cumDist_succ]
  rw [cex6_cum 49 (by omega), cex6_getD 49 (by omega), cex6_getD (49 + 1) (by omega)]
  rw [show cex6f 49 = ⟨"", 0, 0, 0, 490, 0, 0⟩ from rfl,
    show cex6f (49 + 1) = ⟨"", 0, 0, 0, 0, 0, 0⟩ from rfl]
  show 10 * (49 : ℝ) + distance2D 490 0 0 0 = 980
  rw [distance2D_horiz]
  rw [show ((0 - 490 : Int) : ℝ) = -(490 : ℝ) from by push_cast; ring]
  rw [abs_neg, abs_of_nonneg (by norm_num : (0 : ℝ) ≤ 490)]
  norm_num

/-- Boundary threshold of the C6 counterexample: five mean segment lengths. -/
theorem cex6_thr : lapThreshold cex6 = 98 := by
  unfold lapThreshold totalDistance
  rw [show cex6.length = 51 from by simp [cex6]]
  norm_num [cex6_cum50]

/-- Sample 50 of the C6 counterexample is exactly at the first coordinates. -/
theorem cex6_distFirst50 : distFirst cex6 50 = 0 := by
  unfold distFirst
  rw [cex6_getD 50 (by omega), cex6_getD 0 (by omega)]
  rw [show cex6f 50 = ⟨"", 0, 0, 0, 0, 0, 0⟩ from rfl,
    show cex6f 0 = ⟨"", 0, 0, 0, 0, 0, 0⟩ from rfl]
  show distance2D 0 0 0 0 = 0
  exact distance2D_self 0 0

/-- The source records no boundary on the C6 counterexample. -/
theorem cex6_code_starts : mapLapStarts cex6 = [0] := by
  unfold mapLapStarts
  rw [show cex6.length = 51 from by simp [cex6]]
  show lapScan cex6 (lapThreshold cex6) 50 (0 + 1) [0] = [0]
  simp only [lapScan]
  rw [cex6_distFirst50, cex6_thr, show ([0] : List Nat).getLastD 0 = 0 from rfl]
  norm_num

/-- The claim's reading of the scan records a boundary at sample 50 on the C6
counterexample. -/
theorem cex6_claim_starts : specLapStartsClaim cex6 = [0, 50] := by
  unfold specLapStartsClaim
  rw [show cex6.length = 51 from by simp [cex6]]
  show 0 :: specLapScanGE cex6 (lapThreshold cex6) 50 (0 + 1) 0 = [0, 50]
  simp only [specLapScanGE]
  rw [cex6_distFirst50, cex6_thr]
  norm_num

/-- C6 counterexample: 51 samples whose last sample returns to the first
coordinates exactly 50 samples after the previous lap start.  The claim's
conditions hold at sample 50 (distance 0, below the threshold 98; 50 samples
elapsed), yet the code records no boundary, because it requires strictly more than
50 elapsed samples. -/
theorem lapBoundary_counterexample :
    distFirst cex6 50 = 0 ∧ lapThreshold cex6 = 98 ∧
    specLapStartsClaim cex6 = [0, 50] ∧ mapLapStarts cex6 = [0] ∧
    mapLapStarts cex6 ≠ specLapStartsClaim cex6 := by
  refine ⟨cex6_distFirst50, cex6_thr, cex6_claim_starts, cex6_code_starts, ?_⟩
  rw [cex6_code_starts, cex6_claim_starts]
  decide

end F1
